import Mathlib

set_option linter.unusedVariables false

/-!
Shallow embedding of the memory-aperture configurator
(sources: src/soc/mod.rs, src/dt/mod.rs, src/states/mod.rs, src/main.rs).

Machine `u64` arithmetic is embedded over `Nat` with explicit wrap-around
(`% 2 ^ 64`) at every operation where the source's release-mode overflow
behaviour matters.  Rust `Result<T, E>` becomes `Except E T`; in-place
mutation becomes explicit state passing (each mutator returns the outcome
together with the post-state).
-/

instance {ε α : Type} [DecidableEq ε] [DecidableEq α] : DecidableEq (Except ε α) :=
  fun x y =>
    match x, y with
    | Except.ok a, Except.ok b =>
      if h : a = b then Decidable.isTrue (by rw [h])
      else Decidable.isFalse (by intro hc; cases hc; exact h rfl)
    | Except.error e, Except.error f =>
      if h : e = f then Decidable.isTrue (by rw [h])
      else Decidable.isFalse (by intro hc; cases hc; exact h rfl)
    | Except.ok _, Except.error _ => Decidable.isFalse (by intro hc; cases hc)
    | Except.error _, Except.ok _ => Decidable.isFalse (by intro hc; cases hc)

def U64 : Nat := 2 ^ 64

/-- Wrapping `u64` subtraction: release-mode semantics of Rust `a - b` on `u64`. -/
def wsub (a b : Nat) : Nat := (a % U64 + (U64 - b % U64)) % U64

/-- Wrapping `u64` addition: release-mode semantics of Rust `a + b` on `u64`. -/
def wadd (a b : Nat) : Nat := (a + b) % U64

/-- src/soc/mod.rs: `pub struct SegError {}` — the single fault value every
fallible core operation returns. -/
structure SegError where
deriving DecidableEq

/-- src/soc/mod.rs: `pub struct MemoryAperture` (field names as in the source). -/
structure MemoryAperture where
  description : String
  bus_addr : Nat
  hardware_addr : Nat
  aperture_size : Nat
  reg_name : String
deriving DecidableEq

/-- src/soc/mod.rs `MemoryAperture::get_hw_start_addr`:
fails iff `hardware_addr > total_system_memory`, else returns `hardware_addr`. -/
def MemoryAperture.get_hw_start_addr (a : MemoryAperture) (total_system_memory : Nat) :
    Except SegError Nat :=
  if a.hardware_addr > total_system_memory then Except.error ⟨⟩
  else Except.ok a.hardware_addr

/-- src/soc/mod.rs `MemoryAperture::get_hw_end_addr`:
`aperture_max = hardware_addr + aperture_size` (u64 add, wraps), result is
`total_system_memory` when `aperture_max` exceeds it, else `aperture_max`. -/
def MemoryAperture.get_hw_end_addr (a : MemoryAperture) (total_system_memory : Nat) :
    Except SegError Nat :=
  let aperture_max := wadd a.hardware_addr a.aperture_size
  if aperture_max > total_system_memory then Except.ok total_system_memory
  else Except.ok aperture_max

/-- src/soc/mod.rs `MemoryAperture::set_hw_start_addr`: stores `new_start_addr`
when `new_start_addr < total_system_memory`, else faults leaving the aperture
unchanged.  The returned aperture is the post-state of the `&mut self`. -/
def MemoryAperture.set_hw_start_addr (a : MemoryAperture)
    (total_system_memory new_start_addr : Nat) :
    Except SegError Unit × MemoryAperture :=
  if new_start_addr < total_system_memory then
    (Except.ok (), { a with hardware_addr := new_start_addr })
  else
    (Except.error ⟨⟩, a)

/-- src/soc/mod.rs: `pub struct MPFS` — the Board. -/
structure MPFS where
  total_system_memory : Nat
  memory_apertures : List MemoryAperture
  current_aperture_id : Option Nat
deriving DecidableEq

/-- src/soc/mod.rs `SoC::get_hw_start_addr_by_id` for `MPFS`: forwards to the
indexed aperture with the Board's own `total_system_memory` (the parameter is
ignored by the source too).  The source indexes the `Vec` unconditionally; an
out-of-range `id` is a caller contract violation (spec §4.3), modelled as the
fault value. -/
def MPFS.get_hw_start_addr_by_id (b : MPFS) (total_system_memory id : Nat) :
    Except SegError Nat :=
  match b.memory_apertures.get? id with
  | some a => a.get_hw_start_addr b.total_system_memory
  | none => Except.error ⟨⟩

/-- src/soc/mod.rs `SoC::get_hw_end_addr_by_id` for `MPFS`. -/
def MPFS.get_hw_end_addr_by_id (b : MPFS) (total_system_memory id : Nat) :
    Except SegError Nat :=
  match b.memory_apertures.get? id with
  | some a => a.get_hw_end_addr b.total_system_memory
  | none => Except.error ⟨⟩

/-- src/soc/mod.rs `SoC::set_hw_start_addr_by_id` for `MPFS`: mutates the
indexed aperture through its validated setter.  Out-of-range `id` would panic
in the source (caller contract violation); modelled as a fault with the Board
unchanged. -/
def MPFS.set_hw_start_addr_by_id (b : MPFS) (new_start_addr id : Nat) :
    Except SegError Unit × MPFS :=
  match b.memory_apertures.get? id with
  | some a =>
    let ra := a.set_hw_start_addr b.total_system_memory new_start_addr
    (ra.1, { b with memory_apertures := b.memory_apertures.set id ra.2 })
  | none => (Except.error ⟨⟩, b)

/-- src/soc/mod.rs `impl Default for MPFS`: the fixed six-aperture board. -/
def mpfsDefault : MPFS :=
  { total_system_memory := 0x80000000,
    current_aperture_id := none,
    memory_apertures :=
      [ { description := "64-bit cached\t",
          reg_name := "seg0_1",
          bus_addr := 0x1000000000,
          hardware_addr := 0x0002000000,
          aperture_size := 0x400000000 }
      , { description := "64-bit non-cached",
          reg_name := "seg1_3",
          bus_addr := 0x1400000000,
          hardware_addr := 0x0,
          aperture_size := 0x40000000 }
      , { description := "64-bit WCB\t",
          reg_name := "seg1_5",
          bus_addr := 0x1800000000,
          hardware_addr := 0x0,
          aperture_size := 0x40000000 }
      , { description := "32-bit cached\t",
          reg_name := "seg0_0",
          bus_addr := 0x80000000,
          hardware_addr := 0x0,
          aperture_size := 0x40000000 }
      , { description := "32-bit non-cached",
          reg_name := "seg1_2",
          bus_addr := 0xC0000000,
          hardware_addr := 0x0,
          aperture_size := 0x10000000 }
      , { description := "32-bit WCB\t",
          reg_name := "seg1_4",
          bus_addr := 0xD0000000,
          hardware_addr := 0x0,
          aperture_size := 0x10000000 } ] }

/-- src/soc/mod.rs `seg_to_hw_start_addr` (the decode direction of the segment
codec).  If bit `0x4000` is clear the result is `bus_addr` itself; otherwise
the low 14 bits give `temp`, the offset is `(0x4000 - temp) << 24` and the
result is the u64 subtraction `bus_addr - offset` (wraps on underflow). -/
def seg_to_hw_start_addr (seg bus_addr : Nat) : Nat :=
  if seg &&& 0x4000 == 0 then
    bus_addr
  else
    let temp := seg &&& 0x3FFF
    let temp := wsub 0x4000 temp
    let temp := (temp <<< 24) % U64
    wsub bus_addr temp

/-- The offset `(0x4000 - (seg & 0x3FFF)) << 24` subtracted from `bus_addr`
inside `seg_to_hw_start_addr`'s set-bit branch (same expression as the source). -/
def seg_decode_offset (seg : Nat) : Nat :=
  ((wsub 0x4000 (seg &&& 0x3FFF)) <<< 24) % U64

/-- The u64 subtraction `bus_addr - offset` in `seg_to_hw_start_addr`
underflows: bit `0x4000` of `seg` is set and the offset exceeds `bus_addr`. -/
def seg_decode_underflows (seg bus_addr : Nat) : Prop :=
  seg &&& 0x4000 ≠ 0 ∧ bus_addr < seg_decode_offset seg

instance (seg bus_addr : Nat) : Decidable (seg_decode_underflows seg bus_addr) := by
  unfold seg_decode_underflows; infer_instance

/-- src/soc/mod.rs `hw_start_addr_to_seg` (the encode direction): `0` in the
identity case, else `(0x4000 - ((bus_addr - hw_start_addr) >> 24)) | 0x4000`
with u64 (wrapping) subtractions. -/
def hw_start_addr_to_seg (hw_start_addr bus_addr : Nat) : Nat :=
  if bus_addr == hw_start_addr then
    0x0
  else
    let temp := wsub bus_addr hw_start_addr
    let temp := temp >>> 24
    (wsub 0x4000 temp) ||| 0x4000

/-- src/main.rs `hex_to_mib`: `hex / (2_u64.pow(10).pow(2))` = division by `2 ^ 20`. -/
def hex_to_mib (hex : Nat) : Nat := hex / 2 ^ 20

/-- Lowercase hexadecimal digit string of a `Nat` (Rust `\x7b:x\x7d`). -/
def hexString (n : Nat) : String := String.mk (Nat.toDigits 16 n)

/-- Rust `format!("\x7b:#0Wx\x7d", n)`: `0x` prefix, digits zero-padded so the whole
string is at least `width` characters. -/
def hexFmt (width n : Nat) : String :=
  let digits := hexString n
  "0x" ++ String.mk (List.replicate (width - 2 - digits.length) (Char.ofNat 48)) ++ digits

/-- Rust `format!("\x7b:#x?\x7d", n)`: `0x` prefix, no padding. -/
def hexFmtMin (n : Nat) : String := "0x" ++ hexString n

/-- The row-building loop of src/main.rs `format_table_data`, carried over the
remaining apertures: returns the accumulated `data` rows and the
`config_is_valid` vector (which the source pushes `false` onto only for
apertures whose getters fail).  `idx` is `data.len()` at each step.  The
`u64::MAX` unwrap in the Register Value column cannot fail for `u64` fields
(`hardware_addr <= u64::MAX`); the unreachable error branch is modelled as `0`. -/
def format_table_rows (total : Nat) : Nat → List MemoryAperture → List (List String) × List Bool
  | _, [] => ([], [])
  | idx, a :: rest =>
    let aperature_start := a.get_hw_start_addr total
    let aperature_end := a.get_hw_end_addr total
    let reg_value :=
      hw_start_addr_to_seg
        (match a.get_hw_start_addr (U64 - 1) with
         | Except.ok v => v
         | Except.error _ => 0)
        a.bus_addr
    let base := [Nat.repr idx, a.reg_name, a.description, hexFmt 12 a.bus_addr,
                 hexFmt 8 reg_value]
    let tail :=
      match aperature_start, aperature_end with
      | Except.ok s, Except.ok e =>
        ([hexFmt 12 s, hexFmt 12 e, Nat.repr (hex_to_mib (wsub e s)) ++ " MiB"],
         ([] : List Bool))
      | _, _ =>
        (["invalid", "invalid", "n/a MiB"], [false])
    let restOut := format_table_rows total (idx + 1) rest
    ((base ++ tail.1) :: restOut.1, tail.2 ++ restOut.2)

/-- src/main.rs `format_table_data`: builds the seg table rows and the aggregate
validity result.  The source returns `Ok(())` when `config_is_valid.len()`
differs from the aperture count and `Err(())` when they are equal — i.e. the
configuration is reported invalid exactly when every aperture failed. -/
def format_table_data (board : MPFS) : List (List String) × Except Unit Unit :=
  let rows := format_table_rows board.total_system_memory 0 board.memory_apertures
  if rows.2.length ≠ board.memory_apertures.length then (rows.1, Except.ok ())
  else (rows.1, Except.error ())

/-- The fixed message src/main.rs `render_seg_regs` shows when
`config_is_valid` is an error. -/
def invalidConfigMessage : String :=
  "Cannot calculate seg registers, configuration is invalid as no memory is mapped."

/-- src/main.rs `render_seg_regs`, modelled as the text it renders: on `Ok` it
derives and prints one seg value per aperture from `hardware_addr`/`bus_addr`;
on `Err` it prints the single aggregate message. -/
def render_seg_regs_output (board : MPFS) (config_is_valid : Except Unit Unit) : String :=
  match config_is_valid with
  | Except.ok _ =>
    "seg-reg-config: \x7b " ++
      String.join (board.memory_apertures.map (fun a =>
        a.reg_name ++ ": " ++
          hexFmtMin (hw_start_addr_to_seg a.hardware_addr a.bus_addr) ++ ", ")) ++
      "\x7d\n"
  | Except.error _ => invalidConfigMessage

/-- src/main.rs `save_segs_to_config`, modelled as the sequence of
`(reg_name, seg value)` entries written into the YAML document: one entry per
aperture, unconditionally, derived from the current `hardware_addr` (file I/O
is external glue). -/
def save_seg_values (board : MPFS) : List (String × String) :=
  board.memory_apertures.map (fun a =>
    (a.reg_name, hexFmtMin (hw_start_addr_to_seg a.hardware_addr a.bus_addr)))

/-- src/dt/mod.rs: `pub struct MemoryNode`. -/
structure MemoryNode where
  address : Nat
  size : Nat
  label : String
deriving DecidableEq

/-- Modelled from the spec: `MemoryAperture::get_region_hw_start_addr` is
called by `MemoryNode::get_hw_start_addr` (src/dt/mod.rs) but is not defined
anywhere under `src/`.  Spec §4.4: it answers "does this aperture's current
hardware range overlap the MemoryNode's declared address+size?", producing the
node's effective hardware start address on a match and nothing otherwise
(§8's concrete scenario: node `address=0x10000000, size=0x10000000` against an
aperture with `hardware_addr=0x0, aperture_size=0x40000000` resolves to
`0x10000000`, the node's own address). -/
def MemoryAperture.get_region_hw_start_addr (a : MemoryAperture) (address size : Nat) :
    Option Nat :=
  if a.hardware_addr < address + size ∧ address < a.hardware_addr + a.aperture_size then
    some address
  else
    none

/-- src/dt/mod.rs `MemoryNode::get_hw_start_addr`: walk the apertures in Board
order, return the first `get_region_hw_start_addr` match, fault if none
overlaps. -/
def MemoryNode.get_hw_start_addr (node : MemoryNode) :
    List MemoryAperture → Except SegError Nat
  | [] => Except.error ⟨⟩
  | a :: rest =>
    match a.get_region_hw_start_addr node.address node.size with
    | some v => Except.ok v
    | none => node.get_hw_start_addr rest

/-- src/dt/mod.rs `MemoryNode::to_strings`: label, address, size, then either
hardware start and `start + size - 1`, or two zero cells when resolution
failed (`\x7b:#012x\x7d` formatting throughout, u64 arithmetic). -/
def MemoryNode.to_strings (node : MemoryNode) (board : MPFS) : List String :=
  let hw_address := node.get_hw_start_addr board.memory_apertures
  [node.label, hexFmt 12 node.address, hexFmt 12 node.size] ++
    match hw_address with
    | Except.error _ => [hexFmt 12 0, hexFmt 12 0]
    | Except.ok v => [hexFmt 12 v, hexFmt 12 (wsub (wadd v node.size) 1)]

/-- Modelled from the spec: `MemoryAperture::set_hw_start_addr_from_seg` is
called by `setup_segs_from_config` (src/main.rs) but is not defined anywhere
under `src/`.  Spec §2 data flow: persisted seg value → SegmentCodec decode
against the aperture's fixed bus address → `Board.set_hw_start_addr`
(the validated setter). -/
def MemoryAperture.set_hw_start_addr_from_seg (a : MemoryAperture) (total seg : Nat) :
    Except SegError Unit × MemoryAperture :=
  a.set_hw_start_addr total (seg_to_hw_start_addr seg a.bus_addr)

/-- The per-aperture loop of src/main.rs `setup_segs_from_config`: for each
aperture, when the config carries a (here: already hex-parsed) seg value for
its `reg_name`, apply it via `set_hw_start_addr_from_seg` with `?` — so the
first failure returns immediately, keeping mutations already made and leaving
every later aperture untouched. -/
def setup_segs_loop (total : Nat) (config : String → Option Nat) :
    List MemoryAperture → Except SegError Unit × List MemoryAperture
  | [] => (Except.ok (), [])
  | a :: rest =>
    match config a.reg_name with
    | none =>
      let r := setup_segs_loop total config rest
      (r.1, a :: r.2)
    | some seg =>
      let ra := a.set_hw_start_addr_from_seg total seg
      match ra.1 with
      | Except.error e => (Except.error e, ra.2 :: rest)
      | Except.ok _ =>
        let r := setup_segs_loop total config rest
        (r.1, ra.2 :: r.2)

/-- src/main.rs `setup_segs_from_config` on an already-parsed config mapping
(YAML reading and hex-string parsing are external glue). -/
def setup_segs_from_config (board : MPFS) (config : String → Option Nat) :
    Except SegError Unit × MPFS :=
  let r := setup_segs_loop board.total_system_memory config board.memory_apertures
  (r.1, { board with memory_apertures := r.2 })

/-- The three board-mutating user intents of the wizard
(src/states/mod.rs `wait_for_input_handler`). -/
inductive WizardOp where
  | setTotal (mem : Nat)
  | selectAperture (id : Nat)
  | setStartAddr (addr : Nat)
deriving DecidableEq

/-- Is this operation the "set total system memory" entry point? -/
def WizardOp.isSetTotal : WizardOp → Bool
  | WizardOp.setTotal _ => true
  | _ => false

/-- Board mutations of src/states/mod.rs `wait_for_input_handler`, one
successfully-parsed user input at a time (prompt text and re-prompt loops are
UI glue):
* previous state `Init`: `board.total_system_memory = memory` — stored
  unconditionally;
* previous state `SelectAperature`: bounds-checked against the aperture count,
  then `board.current_aperture_id = Some(id)`;
* previous state `SelectOperation`: `board.set_hw_start_addr_by_id(addr, id)`
  with the currently selected aperture (the source `unwrap`s the selection,
  which the wizard flow guarantees; an unselected board is left unchanged). -/
def wizardStep (b : MPFS) : WizardOp → MPFS
  | WizardOp.setTotal mem => { b with total_system_memory := mem }
  | WizardOp.selectAperture id =>
    if id < b.memory_apertures.length then { b with current_aperture_id := some id }
    else b
  | WizardOp.setStartAddr addr =>
    match b.current_aperture_id with
    | none => b
    | some id => (b.set_hw_start_addr_by_id addr id).2

/-- A whole interactive session: the wizard operations applied in order. -/
def applyOps (b : MPFS) (ops : List WizardOp) : MPFS :=
  ops.foldl wizardStep b

-- General facts about the wrapping arithmetic and the 14-bit segment fields,
-- shared by several claims below.

theorem wsub_eq_sub {a b : Nat} (hba : b ≤ a) (ha : a < U64) : wsub a b = a - b := by
  unfold wsub
  have hb : b < U64 := lt_of_le_of_lt hba ha
  rw [Nat.mod_eq_of_lt ha, Nat.mod_eq_of_lt hb]
  have h1 : a + (U64 - b) = (a - b) + U64 := by omega
  rw [h1, Nat.add_mod_right]
  exact Nat.mod_eq_of_lt (by omega)

theorem wadd_eq_add {a b : Nat} (h : a + b < U64) : wadd a b = a + b := by
  unfold wadd
  exact Nat.mod_eq_of_lt h

theorem lor_0x4000 {m : Nat} (hm : m < 0x4000) : m ||| 0x4000 = 0x4000 + m := by
  have hm14 : m < 2 ^ 14 := by
    have h2 : (2 : Nat) ^ 14 = 16384 := by norm_num
    omega
  have h := Nat.mul_add_lt_is_or hm14 1
  rw [Nat.lor_comm]
  have h14 : (2 : Nat) ^ 14 * 1 = 0x4000 := by norm_num
  rw [h14] at h
  exact h.symm

theorem or4000_and_3FFF {m : Nat} (hm : m < 0x4000) : (0x4000 + m) &&& 0x3FFF = m := by
  have h : (0x4000 + m) &&& 0x3FFF = (0x4000 + m) % 2 ^ 14 := by
    have h0 := Nat.and_pow_two_sub_one_eq_mod (0x4000 + m) 14
    norm_num at h0 ⊢
    exact h0
  rw [h]
  have h14 : (2 : Nat) ^ 14 = 16384 := by norm_num
  rw [h14]
  have hmod := Nat.add_mod_left 16384 m
  omega

theorem or4000_and_4000 {m : Nat} (hm : m < 0x4000) : (0x4000 + m) &&& 0x4000 = 0x4000 := by
  have h14 : (2 : Nat) ^ 14 = 16384 := by norm_num
  have h1 : Nat.testBit m 14 = false := by
    apply Nat.testBit_eq_false_of_lt
    omega
  have h2 := Nat.testBit_two_pow_add_eq m 14
  rw [h1] at h2
  have h3 := Nat.and_two_pow (0x4000 + m) 14
  rw [h14] at h2 h3
  have h4 : (0x4000 + m) = (16384 + m) := by norm_num
  rw [h4] at h3 ⊢
  rw [h2] at h3
  simpa using h3

/-- C1: for every u64 pair `(hw, bus)` with `hw ≤ bus`, `bus - hw` a multiple
of `2 ^ 24` and `(bus - hw) >>> 24 ≤ 0x3FFF`, decoding the encoded segment
value returns the original hardware start address:
`seg_to_hw_start_addr (hw_start_addr_to_seg hw bus) bus = hw`. -/
theorem C1_seg_round_trip (hw bus : Nat) (hbus : bus < U64) (hle : hw ≤ bus)
    (hdvd : 2 ^ 24 ∣ (bus - hw)) (hrng : (bus - hw) >>> 24 ≤ 0x3FFF) :
    seg_to_hw_start_addr (hw_start_addr_to_seg hw bus) bus = hw := by
  by_cases hEq : bus = hw
  · simp [hw_start_addr_to_seg, seg_to_hw_start_addr, hEq]
  · have hlt : hw < bus := lt_of_le_of_ne hle (fun h => hEq h.symm)
    obtain ⟨k, hk⟩ := hdvd
    have hbeq : (bus == hw) = false := by simp [hEq]
    have hwsub1 : wsub bus hw = bus - hw := wsub_eq_sub hle hbus
    have hshr : (bus - hw) >>> 24 = k := by
      rw [Nat.shiftRight_eq_div_pow, hk]
      exact Nat.mul_div_cancel_left k (by norm_num)
    have hk1 : 1 ≤ k := by
      rcases Nat.eq_zero_or_pos k with h0 | h1
      · exfalso; rw [h0, Nat.mul_zero] at hk; omega
      · exact h1
    have hk2 : k ≤ 0x3FFF := by rw [hshr] at hrng; exact hrng
    have hwsub2 : wsub 0x4000 k = 0x4000 - k := by
      apply wsub_eq_sub (by omega)
      norm_num [U64]
    have hmlt : 0x4000 - k < 0x4000 := by omega
    have hseg : hw_start_addr_to_seg hw bus = 0x4000 + (0x4000 - k) := by
      simp only [hw_start_addr_to_seg, hbeq]
      simp only [Bool.false_eq_true, if_false]
      rw [hwsub1, hshr, hwsub2]
      exact lor_0x4000 hmlt
    rw [hseg]
    have hcond : ((0x4000 + (0x4000 - k)) &&& 0x4000 == 0) = false := by
      rw [or4000_and_4000 hmlt]
      norm_num
    simp only [seg_to_hw_start_addr, hcond]
    simp only [Bool.false_eq_true, if_false]
    rw [or4000_and_3FFF hmlt]
    have hwsub3 : wsub 0x4000 (0x4000 - k) = k := by
      rw [wsub_eq_sub (by omega) (by norm_num [U64])]
      omega
    rw [hwsub3]
    have hshl : (k <<< 24) % U64 = 2 ^ 24 * k := by
      rw [Nat.shiftLeft_eq]
      have hlt2 : k * 2 ^ 24 < U64 := by
        have hle2 : k * 2 ^ 24 ≤ 0x3FFF * 2 ^ 24 := Nat.mul_le_mul_right _ hk2
        have : (0x3FFF : Nat) * 2 ^ 24 < U64 := by norm_num [U64]
        omega
      rw [Nat.mod_eq_of_lt hlt2, Nat.mul_comm]
    rw [hshl, ← hk]
    rw [wsub_eq_sub (Nat.sub_le _ _) hbus]
    omega

/-- C1 witness: the round trip at `hw = 0x2000000`, `bus = 0x1000000000`
(the default board's first aperture). -/
theorem C1_seg_round_trip_witness :
    seg_to_hw_start_addr (hw_start_addr_to_seg 0x2000000 0x1000000000) 0x1000000000 =
      0x2000000 :=
  C1_seg_round_trip 0x2000000 0x1000000000 (by norm_num [U64]) (by norm_num)
    (by norm_num) (by decide)

/-- A concrete aperture used by witnesses (the default board's first aperture). -/
def apSample : MemoryAperture :=
  { description := "64-bit cached\t",
    reg_name := "seg0_1",
    bus_addr := 0x1000000000,
    hardware_addr := 0x2000000,
    aperture_size := 0x400000000 }

/-- C3: `set_hw_start_addr total new` faults and leaves the aperture — every
field — unchanged whenever `new ≥ total`, and succeeds setting exactly
`hardware_addr := new` whenever `new < total`. -/
theorem C3_set_hw_start_addr (a : MemoryAperture) (total new_start : Nat) :
    (total ≤ new_start →
      a.set_hw_start_addr total new_start = (Except.error ⟨⟩, a)) ∧
    (new_start < total →
      a.set_hw_start_addr total new_start =
        (Except.ok (), { a with hardware_addr := new_start })) := by
  constructor
  · intro h
    unfold MemoryAperture.set_hw_start_addr
    rw [if_neg (by omega)]
  · intro h
    unfold MemoryAperture.set_hw_start_addr
    rw [if_pos h]

/-- C3 witness: rejection at `new = 0x90000000 ≥ total = 0x80000000` and
acceptance at `new = 0x1000 < total`. -/
theorem C3_set_hw_start_addr_witness :
    apSample.set_hw_start_addr 0x80000000 0x90000000 = (Except.error ⟨⟩, apSample) ∧
    apSample.set_hw_start_addr 0x80000000 0x1000 =
      (Except.ok (), { apSample with hardware_addr := 0x1000 }) :=
  ⟨(C3_set_hw_start_addr apSample 0x80000000 0x90000000).1 (by norm_num),
   (C3_set_hw_start_addr apSample 0x80000000 0x1000).2 (by norm_num)⟩

/-- An aperture whose stored start address equals the probed total system
memory exactly. -/
def apBoundary : MemoryAperture := { apSample with hardware_addr := 0x80000000 }

/-- C9 counterexample: the claim says `get_hw_start_addr` faults exactly when
`hardware_addr ≥ total_system_memory`; at `hardware_addr = total = 0x80000000`
it does not fault (the source faults only on strict `>`). -/
theorem C9_cex :
    ¬ ((apBoundary.get_hw_start_addr 0x80000000 = Except.error ⟨⟩) ↔
        0x80000000 ≤ apBoundary.hardware_addr) := by
  decide

/-- C9 amended: `get_hw_start_addr` faults exactly when the stored
`hardware_addr` strictly exceeds `total_system_memory`, and otherwise returns
`hardware_addr`; the aperture itself is never modified (the getter takes the
state immutably). -/
theorem C9_get_hw_start_addr (a : MemoryAperture) (total : Nat) :
    (total < a.hardware_addr → a.get_hw_start_addr total = Except.error ⟨⟩) ∧
    (a.hardware_addr ≤ total → a.get_hw_start_addr total = Except.ok a.hardware_addr) := by
  constructor
  · intro h
    unfold MemoryAperture.get_hw_start_addr
    rw [if_pos h]
  · intro h
    unfold MemoryAperture.get_hw_start_addr
    rw [if_neg (by omega)]

/-- C9 witness: a fault at `hardware_addr = 0x2000000 > total = 0x100` and a
success at `total = 0x80000000`. -/
theorem C9_get_hw_start_addr_witness :
    apSample.get_hw_start_addr 0x100 = Except.error ⟨⟩ ∧
    apSample.get_hw_start_addr 0x80000000 = Except.ok apSample.hardware_addr :=
  ⟨(C9_get_hw_start_addr apSample 0x100).1 (by norm_num [apSample]),
   (C9_get_hw_start_addr apSample 0x80000000).2 (by norm_num [apSample])⟩

/-- `get_hw_end_addr` evaluates to the minimum of the wrapped sum
`hardware_addr + aperture_size` and `total_system_memory`. -/
theorem get_hw_end_addr_eq (a : MemoryAperture) (total : Nat) :
    a.get_hw_end_addr total =
      Except.ok (min (wadd a.hardware_addr a.aperture_size) total) := by
  simp only [MemoryAperture.get_hw_end_addr]
  split_ifs with h
  · congr 1
    omega
  · congr 1
    omega

/-- An aperture whose window sum `hardware_addr + aperture_size` overflows u64. -/
def apWrap : MemoryAperture :=
  { apSample with hardware_addr := U64 - 1, aperture_size := 1 }

/-- C8 counterexample: with `hardware_addr = 2^64 - 1`, `aperture_size = 1` and
`total = 5` the u64 sum wraps to `0`, so `get_hw_end_addr` returns `Ok 0`, not
the claimed `min (hardware_addr + aperture_size) total = 5`. -/
theorem C8_cex :
    apWrap.get_hw_end_addr 5 ≠
      Except.ok (min (apWrap.hardware_addr + apWrap.aperture_size) 5) := by
  decide

/-- C8 amended: `get_hw_end_addr` never faults and returns exactly
`min ((hardware_addr + aperture_size) mod 2^64) total` — which equals
`min (hardware_addr + aperture_size) total` whenever the u64 sum does not
overflow — and the returned end address never exceeds `total_system_memory`. -/
theorem C8_get_hw_end_addr (a : MemoryAperture) (total : Nat) :
    a.get_hw_end_addr total =
      Except.ok (min (wadd a.hardware_addr a.aperture_size) total) ∧
    (a.hardware_addr + a.aperture_size < U64 →
      a.get_hw_end_addr total =
        Except.ok (min (a.hardware_addr + a.aperture_size) total)) ∧
    (∀ v, a.get_hw_end_addr total = Except.ok v → v ≤ total) ∧
    (∀ e, a.get_hw_end_addr total ≠ Except.error e) := by
  refine ⟨get_hw_end_addr_eq a total, ?_, ?_, ?_⟩
  · intro h
    rw [get_hw_end_addr_eq, wadd_eq_add h]
  · intro v hv
    rw [get_hw_end_addr_eq] at hv
    cases hv
    omega
  · intro e he
    rw [get_hw_end_addr_eq] at he
    cases he

/-- C8 witness: clipping at the sample aperture — the end address is clipped
to `total = 0x80000000` (the sum `0x2000000 + 0x400000000` does not overflow),
never exceeds it, and no fault is possible. -/
theorem C8_get_hw_end_addr_witness :
    apSample.get_hw_end_addr 0x80000000 = Except.ok (min (0x2000000 + 0x400000000) 0x80000000) ∧
    min (0x2000000 + 0x400000000) 0x80000000 ≤ (0x80000000 : Nat) ∧
    apSample.get_hw_end_addr 0x80000000 ≠ Except.error ⟨⟩ :=
  ⟨(C8_get_hw_end_addr apSample 0x80000000).2.1 (by norm_num [apSample, U64]),
   (C8_get_hw_end_addr apSample 0x80000000).2.2.1 (min (0x2000000 + 0x400000000) 0x80000000)
     ((C8_get_hw_end_addr apSample 0x80000000).2.1 (by norm_num [apSample, U64])),
   (C8_get_hw_end_addr apSample 0x80000000).2.2.2 ⟨⟩⟩

/-- The `config_is_valid` vector built by `format_table_data` has one entry per
aperture whose getters fail — i.e. per aperture with
`hardware_addr > total_system_memory` (`get_hw_end_addr` never fails). -/
theorem format_table_rows_valid_len (total : Nat) :
    ∀ (l : List MemoryAperture) (idx : Nat),
      (format_table_rows total idx l).2.length =
        (l.filter (fun a => decide (total < a.hardware_addr))).length := by
  intro l
  induction l with
  | nil => intro idx; rfl
  | cons a rest ih =>
    intro idx
    simp only [format_table_rows, MemoryAperture.get_hw_start_addr, gt_iff_lt,
      get_hw_end_addr_eq]
    by_cases h : total < a.hardware_addr
    · simp [h, ih (idx + 1), List.filter_cons]
    · simp [h, ih (idx + 1), List.filter_cons]

/-- `format_table_data` reports the aggregate configuration invalid exactly
when every aperture's `get_hw_start_addr` fails (the `config_is_valid` vector,
onto which the row loop pushes an entry only for failing apertures, must reach
the full aperture count). -/
theorem format_valid_error_iff (board : MPFS) :
    (format_table_data board).2 = Except.error () ↔
      ∀ a ∈ board.memory_apertures, board.total_system_memory < a.hardware_addr := by
  simp only [format_table_data]
  split_ifs with hc
  · constructor
    · intro h
      cases h
    · intro hall
      exfalso
      apply hc
      rw [format_table_rows_valid_len]
      apply List.filter_length_eq_length.mpr
      intro a ha
      simpa using hall a ha
  · rw [not_ne_iff] at hc
    constructor
    · intro _
      rw [format_table_rows_valid_len] at hc
      have hf := List.filter_length_eq_length.mp hc
      intro a ha
      simpa using hf a ha
    · intro _
      rfl

/-- C2 amended: a Board is reported invalid by `format_table_data` iff every
aperture's `get_hw_start_addr` fails under the current `total_system_memory`
(equivalently, it is reported valid iff at least one aperture's getters
succeed; `get_hw_end_addr` can never fail). -/
theorem C2_board_validity (board : MPFS) :
    (format_table_data board).2 = Except.error () ↔
      ∀ a ∈ board.memory_apertures, board.total_system_memory < a.hardware_addr :=
  format_valid_error_iff board

/-- C2/C5 counterexample board: the default board with the first aperture
moved out of range (`hardware_addr = 0x90000000 > total = 0x80000000`) —
exactly one aperture fails validation. -/
def boardOneInvalid : MPFS :=
  { mpfsDefault with
    memory_apertures :=
      mpfsDefault.memory_apertures.set 0 { apSample with hardware_addr := 0x90000000 } }

/-- Observation helper: the `hardware_addr` of aperture `id` (0 when out of
range). -/
def hwAddrAt (b : MPFS) (id : Nat) : Nat :=
  ((b.memory_apertures.get? id).map MemoryAperture.hardware_addr).getD 0

/-- C2 counterexample: `boardOneInvalid` has an aperture failing
`get_hw_start_addr` (`hardware_addr = 0x90000000` exceeds
`total_system_memory = 0x80000000`), yet `format_table_data` reports the
whole-board configuration valid — refuting "invalid iff at least one aperture
fails". -/
theorem C2_cex :
    (format_table_data boardOneInvalid).2 = Except.ok () ∧
    boardOneInvalid.total_system_memory < hwAddrAt boardOneInvalid 0 := by
  constructor
  · decide
  · decide

/-- C2 witness: on a board where every aperture fails, `format_table_data`
does report the invalid aggregate condition. -/
def boardAllInvalid : MPFS :=
  { total_system_memory := 0,
    current_aperture_id := none,
    memory_apertures :=
      [ { apSample with hardware_addr := 1 },
        { apSample with reg_name := "seg1_3", hardware_addr := 2 } ] }

/-- C2 witness: the amended equivalence instantiated at `boardAllInvalid`. -/
theorem C2_board_validity_witness :
    (format_table_data boardAllInvalid).2 = Except.error () :=
  (C2_board_validity boardAllInvalid).mpr (by decide)

/-- On the valid branch `render_seg_regs` always prints the seg-reg-config
line, which is never the aggregate invalid-configuration message. -/
theorem render_ok_ne_invalid (board : MPFS) :
    render_seg_regs_output board (Except.ok ()) ≠ invalidConfigMessage := by
  intro h
  have hd := congrArg (fun s => s.data.head?) h
  simp only [render_seg_regs_output, String.data_append, List.head?_append] at hd
  rw [show ("seg-reg-config: \x7b " : String).data.head? = some 's' from rfl] at hd
  rw [show (invalidConfigMessage : String).data.head? = some 'C' from rfl] at hd
  simp at hd

/-- C5 amended: the display suppresses seg-register values (showing the single
aggregate message) only when every aperture fails validation — with merely one
invalid aperture the values are still derived and displayed — and the save
path derives and persists a seg value for every aperture unconditionally,
regardless of validity. -/
theorem C5_persistence_gating (board : MPFS) :
    (render_seg_regs_output board (format_table_data board).2 = invalidConfigMessage ↔
      ∀ a ∈ board.memory_apertures, board.total_system_memory < a.hardware_addr) ∧
    save_seg_values board =
      board.memory_apertures.map (fun a =>
        (a.reg_name, hexFmtMin (hw_start_addr_to_seg a.hardware_addr a.bus_addr))) := by
  constructor
  · constructor
    · intro h
      cases hv : (format_table_data board).2 with
      | error u =>
        cases u
        exact (format_valid_error_iff board).mp hv
      | ok u =>
        exfalso
        rw [hv] at h
        cases u
        exact render_ok_ne_invalid board h
    · intro hall
      rw [(format_valid_error_iff board).mpr hall]
      rfl
  · rfl

/-- C5 witness: on a board where every aperture fails validation, the display
does show the single aggregate message. -/
theorem C5_persistence_gating_witness :
    render_seg_regs_output boardAllInvalid (format_table_data boardAllInvalid).2 =
      invalidConfigMessage :=
  (C5_persistence_gating boardAllInvalid).1.mpr (by decide)

/-- C5 counterexample: `boardOneInvalid` has an aperture failing validation
(`hardware_addr = 0x90000000 > total = 0x80000000`), yet segment-register
values ARE derived: the display output is the seg-reg-config line, not the
aggregate message, and the save path writes a derived value for all six
apertures — including the invalid one (`seg0_1 → 0x7090`). -/
theorem C5_cex :
    boardOneInvalid.total_system_memory < hwAddrAt boardOneInvalid 0 ∧
    render_seg_regs_output boardOneInvalid (format_table_data boardOneInvalid).2 ≠
      invalidConfigMessage ∧
    save_seg_values boardOneInvalid =
      [("seg0_1", "0x7090"), ("seg1_3", "0x6c00"), ("seg1_5", "0x6800"),
       ("seg0_0", "0x7f80"), ("seg1_2", "0x7f40"), ("seg1_4", "0x7f30")] := by
  refine ⟨by decide, ?_, by decide⟩
  have hv : (format_table_data boardOneInvalid).2 = Except.ok () := by decide
  rw [hv]
  exact render_ok_ne_invalid boardOneInvalid

/-- C6 amended: the batch apply of a persisted configuration aborts at the
first aperture whose segment value fails to apply — the error is returned at
once (the source's `?` operator), apertures before the failure keep their
already-applied values, the failing aperture and every later one are left
unmodified, and no failure collection happens. -/
theorem C6_setup_aborts (total : Nat) (config : String → Option Nat)
    (a : MemoryAperture) (rest : List MemoryAperture) (seg : Nat)
    (hc : config a.reg_name = some seg)
    (hf : (a.set_hw_start_addr_from_seg total seg).1 = Except.error ⟨⟩) :
    setup_segs_loop total config (a :: rest) = (Except.error ⟨⟩, a :: rest) := by
  have hra : a.set_hw_start_addr_from_seg total seg = (Except.error ⟨⟩, a) := by
    unfold MemoryAperture.set_hw_start_addr_from_seg MemoryAperture.set_hw_start_addr at hf ⊢
    by_cases h : seg_to_hw_start_addr seg a.bus_addr < total
    · rw [if_pos h] at hf
      exact absurd hf (by simp)
    · rw [if_neg h]
  simp only [setup_segs_loop, hc, hra]

/-- C6 witness: the abort lemma at a concrete two-aperture batch — seg value
`0x0` for the first aperture decodes to its bus address `0x1000000000`, which
the validated setter rejects against `total = 0x80000000`; the whole batch
stops with both apertures unchanged. -/
theorem C6_setup_aborts_witness :
    setup_segs_loop 0x80000000 (fun n => if n = "seg0_1" then some 0 else none)
        [apSample, { apSample with reg_name := "seg1_3" }] =
      (Except.error ⟨⟩, [apSample, { apSample with reg_name := "seg1_3" }]) :=
  C6_setup_aborts 0x80000000 (fun n => if n = "seg0_1" then some 0 else none)
    apSample [{ apSample with reg_name := "seg1_3" }] 0 (by decide) (by decide)

/-- A persisted configuration carrying seg values for the first two apertures
of the default board: `seg0_1 → 0x0` (will be rejected) and
`seg1_3 → 0x6C01` (would be accepted). -/
def configTwoSegs : String → Option Nat := fun n =>
  if n = "seg0_1" then some 0 else if n = "seg1_3" then some 0x6C01 else none

/-- C6 counterexample: applying `configTwoSegs` to the default board fails on
the first aperture and aborts: the second aperture's value `0x6C01` — which
would have been accepted in isolation (it decodes to `0x1000000`, in range) —
is never applied, so its `hardware_addr` stays `0`; no collected-failure
report exists, only the single first error.  This refutes "a failure applying
one aperture's value does not prevent the remaining apertures' values from
being applied". -/
theorem C6_cex :
    (setup_segs_from_config mpfsDefault configTwoSegs).1 = Except.error ⟨⟩ ∧
    ((mpfsDefault.memory_apertures.get? 1).map
        (fun a =>
          (a.set_hw_start_addr_from_seg mpfsDefault.total_system_memory 0x6C01).1)) =
      some (Except.ok ()) ∧
    seg_to_hw_start_addr 0x6C01 0x1400000000 = 0x1000000 ∧
    hwAddrAt (setup_segs_from_config mpfsDefault configTwoSegs).2 1 = 0 := by
  refine ⟨by decide, by decide, by decide, by decide⟩

/-- C7: the overlap resolver walks the apertures in Board order and returns
the value produced by the first aperture whose current hardware range overlaps
the node's declared `address + size` range, ignoring later matches; it faults
(`NoRoutingAperture`, the `SegError` value) iff no aperture overlaps, in which
case the display layer renders the node with hardware start and end both zero.
(The overlap test itself, `get_region_hw_start_addr`, is modelled from the
spec — its definition is not under `src/`.) -/
theorem C7_overlap_resolution (node : MemoryNode) :
    (∀ l : List MemoryAperture,
      (node.get_hw_start_addr l = Except.error ⟨⟩ ↔
        ∀ a ∈ l, a.get_region_hw_start_addr node.address node.size = none)) ∧
    (∀ (l1 : List MemoryAperture) (a : MemoryAperture) (l2 : List MemoryAperture) (v : Nat),
      (∀ b ∈ l1, b.get_region_hw_start_addr node.address node.size = none) →
      a.get_region_hw_start_addr node.address node.size = some v →
      node.get_hw_start_addr (l1 ++ a :: l2) = Except.ok v) ∧
    (∀ board : MPFS,
      node.get_hw_start_addr board.memory_apertures = Except.error ⟨⟩ →
      node.to_strings board =
        [node.label, hexFmt 12 node.address, hexFmt 12 node.size,
         hexFmt 12 0, hexFmt 12 0]) := by
  refine ⟨?_, ?_, ?_⟩
  · intro l
    induction l with
    | nil => simp [MemoryNode.get_hw_start_addr]
    | cons a rest ih =>
      cases hr : a.get_region_hw_start_addr node.address node.size with
      | some v =>
        simp only [MemoryNode.get_hw_start_addr, hr]
        constructor
        · intro h
          cases h
        · intro hall
          exact absurd (hall a (List.mem_cons_self a rest)) (by simp [hr])
      | none =>
        simp only [MemoryNode.get_hw_start_addr, hr]
        rw [ih]
        constructor
        · intro h a' ha'
          rcases List.mem_cons.mp ha' with h1 | h1
          · rw [h1]; exact hr
          · exact h a' h1
        · intro h a' ha'
          exact h a' (List.mem_cons_of_mem a ha')
  · intro l1
    induction l1 with
    | nil =>
      intro a l2 v _ hv
      simp only [List.nil_append, MemoryNode.get_hw_start_addr, hv]
    | cons b rest ih =>
      intro a l2 v hnone hv
      have hb : b.get_region_hw_start_addr node.address node.size = none :=
        hnone b (List.mem_cons_self b rest)
      simp only [List.cons_append, MemoryNode.get_hw_start_addr, hb]
      exact ih a l2 v (fun c hc => hnone c (List.mem_cons_of_mem b hc)) hv
  · intro board herr
    simp [MemoryNode.to_strings, herr]

/-- The concrete overlap-resolution aperture of spec §8 (`bus_addr =
0x100000000`, `hardware_addr = 0`, `aperture_size = 0x40000000`). -/
def apScenario : MemoryAperture :=
  { description := "scenario",
    reg_name := "r",
    bus_addr := 0x100000000,
    hardware_addr := 0x0,
    aperture_size := 0x40000000 }

/-- Spec §8's mapped node: `address = 0x10000000`, `size = 0x10000000`. -/
def nodeMapped : MemoryNode := { address := 0x10000000, size := 0x10000000, label := "memory" }

/-- Spec §8's unmapped node: `address = 0x90000000`, outside the aperture. -/
def nodeUnmapped : MemoryNode := { address := 0x90000000, size := 0x10000000, label := "memory" }

/-- The single-aperture board of spec §8's overlap scenarios. -/
def boardScenario : MPFS :=
  { total_system_memory := 0x80000000,
    memory_apertures := [apScenario],
    current_aperture_id := none }

/-- C7 witness: the three parts at spec §8's concrete scenarios — the mapped
node resolves to `0x10000000` through the first (only) aperture, the unmapped
node faults, and its display row carries zero hardware start/end. -/
theorem C7_overlap_resolution_witness :
    MemoryNode.get_hw_start_addr nodeMapped ([] ++ apScenario :: []) =
      Except.ok 0x10000000 ∧
    MemoryNode.get_hw_start_addr nodeUnmapped [apScenario] = Except.error ⟨⟩ ∧
    nodeUnmapped.to_strings boardScenario =
      [nodeUnmapped.label, hexFmt 12 nodeUnmapped.address, hexFmt 12 nodeUnmapped.size,
       hexFmt 12 0, hexFmt 12 0] :=
  ⟨(C7_overlap_resolution nodeMapped).2.1 [] apScenario [] 0x10000000 (by simp) (by decide),
   ((C7_overlap_resolution nodeUnmapped).1 [apScenario]).mpr (by decide),
   (C7_overlap_resolution nodeUnmapped).2.2 boardScenario (by decide)⟩

/-- The validated setter's post-state either keeps the old `hardware_addr` or
stores a value strictly below the bound. -/
theorem set_hw_start_addr_post (a : MemoryAperture) (total new_start : Nat) :
    (a.set_hw_start_addr total new_start).2.hardware_addr = a.hardware_addr ∨
    ((a.set_hw_start_addr total new_start).2.hardware_addr = new_start ∧
      new_start < total) := by
  unfold MemoryAperture.set_hw_start_addr
  split_ifs with h
  · right
    exact ⟨rfl, h⟩
  · left
    rfl

/-- A single wizard step other than "set total system memory" preserves the
bound `hardware_addr ≤ total_system_memory` for every aperture. -/
theorem wizardStep_preserves (b : MPFS) (op : WizardOp)
    (hop : op.isSetTotal = false)
    (hinv : ∀ a ∈ b.memory_apertures, a.hardware_addr ≤ b.total_system_memory) :
    ∀ a ∈ (wizardStep b op).memory_apertures,
      a.hardware_addr ≤ (wizardStep b op).total_system_memory := by
  cases op with
  | setTotal mem => simp [WizardOp.isSetTotal] at hop
  | selectAperture id =>
    simp only [wizardStep]
    split_ifs <;> simpa using hinv
  | setStartAddr addr =>
    simp only [wizardStep]
    cases hsel : b.current_aperture_id with
    | none => simpa using hinv
    | some id =>
      simp only [MPFS.set_hw_start_addr_by_id]
      cases hget : b.memory_apertures.get? id with
      | none => simpa using hinv
      | some a0 =>
        intro a ha
        simp only [] at ha
        rcases List.mem_or_eq_of_mem_set ha with hmem | heq
        · exact hinv a hmem
        · subst heq
          rcases set_hw_start_addr_post a0 b.total_system_memory addr with hsame | ⟨hnew, hlt⟩
        
          · rw [hsame]
            exact hinv a0 (List.get?_mem hget)
          · rw [hnew]
            exact Nat.le_of_lt hlt

/-- C4 amended: starting from the default board, any sequence of wizard
operations that does not use the "set total system memory" entry point keeps
every aperture's `hardware_addr` at or below the Board's
`total_system_memory` (the setter path validates); the set-total entry point
itself can break the bound — see the counterexample. -/
theorem C4_invariant_without_setTotal (ops : List WizardOp)
    (hops : ∀ op ∈ ops, op.isSetTotal = false) :
    ∀ a ∈ (applyOps mpfsDefault ops).memory_apertures,
      a.hardware_addr ≤ (applyOps mpfsDefault ops).total_system_memory := by
  have hgen : ∀ (l : List WizardOp) (b : MPFS),
      (∀ op ∈ l, op.isSetTotal = false) →
      (∀ a ∈ b.memory_apertures, a.hardware_addr ≤ b.total_system_memory) →
      ∀ a ∈ (applyOps b l).memory_apertures,
        a.hardware_addr ≤ (applyOps b l).total_system_memory := by
    intro l
    induction l with
    | nil => intro b _ hinv; exact hinv
    | cons op rest ih =>
      intro b hl hinv
      exact ih (wizardStep b op)
        (fun o ho => hl o (List.mem_cons_of_mem _ ho))
        (wizardStep_preserves b op (hl op (List.mem_cons_self _ _)) hinv)
  exact hgen ops mpfsDefault hops (by decide)

/-- The sample wizard session for the C4 witness: select aperture 0, then set
its start address to `0x1000`. -/
def wopsSample : List WizardOp := [WizardOp.selectAperture 0, WizardOp.setStartAddr 0x1000]

/-- The first default aperture after the sample session. -/
def apAfter : MemoryAperture := { apSample with hardware_addr := 0x1000 }

/-- C4 witness: the invariant instantiated at the concrete session
`wopsSample` and the concrete post-state aperture. -/
theorem C4_invariant_without_setTotal_witness :
    apAfter.hardware_addr ≤ (applyOps mpfsDefault wopsSample).total_system_memory :=
  C4_invariant_without_setTotal wopsSample (by decide) apAfter (by decide)

/-- C4 counterexample: one reachable wizard step — entering `0x100` at the
"set total system memory" prompt — leaves the default board's first aperture
at `hardware_addr = 0x2000000`, strictly above the new total `0x100`: the
claimed invariant does not hold over the wizard's set-total entry point. -/
theorem C4_cex :
    (applyOps mpfsDefault [WizardOp.setTotal 0x100]).total_system_memory <
      hwAddrAt (applyOps mpfsDefault [WizardOp.setTotal 0x100]) 0 := by
  decide

/-- C10 counterexample: at `seg = 0x4000`, `bus_addr = 0x0` the decode branch
with bit `0x4000` set computes `offset = 0x4000 << 24 = 2^38 > bus_addr`, so
the u64 subtraction underflows and wraps to `2^64 - 2^38` — refuting "the
subtraction never underflows below zero" over all `(seg, bus_addr)` pairs. -/
theorem C10_cex :
    seg_decode_underflows 0x4000 0x0 ∧
    seg_to_hw_start_addr 0x4000 0x0 = 2 ^ 64 - 2 ^ 38 := by
  constructor
  · decide
  · decide

/-- C10 amended: `seg_to_hw_start_addr` is total over all u64 pairs (the
subtraction wraps modulo `2^64` rather than failing), and it never underflows
precisely on the guarded domain: whenever `seg_decode_underflows seg bus` does
not hold, the clear-bit branch returns `bus` and the set-bit branch returns
the exact (non-wrapped) difference `bus - offset`. -/
theorem C10_decode_no_underflow (seg bus : Nat) (hbus : bus < U64)
    (h : ¬ seg_decode_underflows seg bus) :
    (seg &&& 0x4000 = 0 → seg_to_hw_start_addr seg bus = bus) ∧
    (seg &&& 0x4000 ≠ 0 →
      seg_to_hw_start_addr seg bus + seg_decode_offset seg = bus) := by
  constructor
  · intro h0
    simp [seg_to_hw_start_addr, h0]
  · intro h0
    have hofs : seg_decode_offset seg ≤ bus := by
      by_contra hlt
      exact h ⟨h0, Nat.lt_of_not_le hlt⟩
    have hcond : (seg &&& 0x4000 == 0) = false := by
      simpa using h0
    simp only [seg_to_hw_start_addr, hcond]
    simp only [Bool.false_eq_true, if_false]
    show wsub bus (seg_decode_offset seg) + seg_decode_offset seg = bus
    rw [wsub_eq_sub hofs hbus]
    omega

/-- C10 witness: the guarded decode at `seg = 0x7002`,
`bus = 0x1000000000` — no underflow, exact subtraction. -/
theorem C10_decode_no_underflow_witness :
    seg_to_hw_start_addr 0x7002 0x1000000000 + seg_decode_offset 0x7002 =
      0x1000000000 :=
  (C10_decode_no_underflow 0x7002 0x1000000000 (by norm_num [U64]) (by decide)).2
    (by decide)
